import Mathlib

/-!
The status checker: the retrying task and its orchestration.

A verification development for `main.go`.

* Part 1 embeds `checkLink` (lines 92-125) as a function from the outcomes
  of its environment (the polls of `ctx.Done()` and the results of
  `http.Get`) to the sequence of events of a call that returns. It says what
  a call does when every `sem <- struct{}{}` and every `c <- link` it reaches
  is taken; it does not say whether they can be taken.
* Part 2 embeds the whole program (`main`, the signal handler, the scheduler
  loop and the tasks) as an interleaving transition system, in which a send
  on `sem` waits for a free slot and a send on `c` waits for the scheduler.
  What is said of the program, and of the calls that do not return, is said
  there.
-/

namespace StatusChecker

/-! Part 1: `checkLink` as a trace function, for the calls that return -/

/-- The constant `maxConcurrency` of line 16. -/
def maxConcurrency : Nat := 5

/-- The constant `maxRetries` of line 17 (a Go `int`). -/
def maxRetries : Int := 3

/-- The constant `retryInterval` of line 18, in seconds. -/
def retryInterval : Nat := 2

/-- The cool-down of line 81, in seconds. -/
def coolDown : Nat := 3

/-- The observable actions of a task, in program order. -/
inductive Event where
  /-- Line 95, `sem <- struct{}{}`. -/
  | acquire
  /-- Line 96, the deferred `<-sem`. -/
  | release
  /-- Line 100, the log record of an aborted call. -/
  | logCancelled (link : String)
  /-- Line 105, `http.Get(link)`, made by the call whose argument is `retryCount`. -/
  | get (link : String) (retryCount : Int)
  /-- Line 107, the log record of a failed probe. -/
  | logError (link : String) (err : String)
  /-- Line 110, the log record of a scheduled retry, with `retryCount+1`. -/
  | logRetry (link : String) (attempt : Int)
  /-- Lines 81 and 111, `time.Sleep`, in seconds. -/
  | sleep (seconds : Nat)
  /-- Line 114, the log record of exhausted retries. -/
  | logGiveUp (link : String)
  /-- Line 123, the log record of a successful probe. -/
  | logUp (link : String) (status : Nat)
  /-- Lines 117 and 124, `c <- link`. -/
  | send (link : String)
  /-- Line 121, the deferred `resp.Body.Close()`. -/
  | closeBody
  /-- Line 93, the deferred `wg.Done()`. -/
  | done
  /-- Lines 61 and 78, `wg.Add(1)`. -/
  | add
  deriving DecidableEq, Repr

/-- What the environment answers to one task. Each call of `checkLink` polls
`ctx.Done()` at most once and calls `http.Get` at most once, and a task's calls
are nested one inside the other, so both answers are indexed by the number of
calls of `checkLink` the task has made before. -/
structure Env where
  /-- Whether the `select` of line 98 finds `ctx.Done()` closed. -/
  ctxDone : Nat → Bool
  /-- What `http.Get` returns at line 105: an error text or a status code. -/
  httpGet : Nat → Except String Nat

/-- What one call of `checkLink` did: its events in order, and how many
activations of `checkLink` were on the stack at its deepest point. -/
structure Run where
  events : List Event
  depth : Nat
  deriving DecidableEq, Repr

/-- The function `checkLink` of lines 92-125, for a call that returns: the
events of the call in program order, the two blocking sends `sem <- struct{}{}`
(line 95) and `c <- link` (lines 117 and 124) being events like the others.
Whether these sends can be taken depends on the other goroutines and is
decided by `step` below, where a call can wait for ever at either of them.
`k` is the number of calls the task has made before this one. The deferred
calls run when the function returns, last registered first:
`resp.Body.Close()` (success path only), then `<-sem`, then `wg.Done()`. -/
def checkLink (env : Env) (link : String) (retryCount : Int) (k : Nat) : Run :=
  if env.ctxDone k then
    ⟨[.acquire, .logCancelled link, .release, .done], 1⟩
  else
    match env.httpGet k with
    | .error err =>
      if retryCount < maxRetries then
        let r := checkLink env link (retryCount + 1) (k + 1)
        ⟨[.acquire, .get link retryCount, .logError link err,
            .logRetry link (retryCount + 1), .sleep retryInterval]
          ++ r.events ++ [.send link, .release, .done], 1 + r.depth⟩
      else
        ⟨[.acquire, .get link retryCount, .logError link err, .logGiveUp link,
            .send link, .release, .done], 1⟩
    | .ok status =>
      ⟨[.acquire, .get link retryCount, .logUp link status, .send link,
          .closeBody, .release, .done], 1⟩
termination_by (maxRetries - retryCount).toNat
decreasing_by
  simp only [maxRetries] at *
  omega

/-- The goroutine of lines 78-83, with the `wg.Add(1)` that precedes it. -/
def scheduledRound (env : Env) (link : String) (k : Nat) : List Event :=
  .add :: .sleep coolDown :: (checkLink env link 0 k).events

/-- The attempt counters of the probes in a trace, in order. -/
def attempts : List Event → List Int
  | [] => []
  | .get _ rc :: es => rc :: attempts es
  | _ :: es => attempts es

/-- How many times `e` occurs in a trace. -/
def occurrences (e : Event) (tr : List Event) : Nat := tr.count e

/-- The environment in which cancellation is never set and the probes answer `res`. -/
def neverCancelled (res : Nat → Except String Nat) : Env := ⟨fun _ => false, res⟩

/-- Every probe fails. -/
def allFail : Env := neverCancelled (fun _ => .error "connection refused")

/-- The first probe fails, the second succeeds. -/
def failThenOk : Env :=
  neverCancelled (fun k => if k = 0 then .error "connection refused" else .ok 200)

/-- Cancellation is set while the task sleeps after its first failed probe. -/
def cancelledDuringWait : Env :=
  ⟨fun k => decide (1 ≤ k), fun _ => .error "connection refused"⟩

/-- Cancellation is already set when the task starts. -/
def cancelledAtStart : Env := ⟨fun _ => true, fun _ => .ok 200⟩

/-- The first probe succeeds. -/
def firstOk : Env := neverCancelled (fun _ => .ok 200)

/-- The largest number of tokens of `sem` the task holds along a trace, when
it holds `h` at its start. -/
def maxHeld : Nat → List Event → Nat
  | h, [] => h
  | h, .acquire :: es => max h (maxHeld (h + 1) es)
  | h, .release :: es => max h (maxHeld (h - 1) es)
  | h, _ :: es => maxHeld h es

/-- The number of tokens of `sem` the task holds at each `time.Sleep` of a
trace, when it holds `h` at its start. -/
def heldAtSleep : Nat → List Event → List Nat
  | _, [] => []
  | h, .acquire :: es => heldAtSleep (h + 1) es
  | h, .release :: es => heldAtSleep (h - 1) es
  | h, .sleep _ :: es => h :: heldAtSleep h es
  | h, _ :: es => heldAtSleep h es

/-- Whether every probe of a trace is followed by a release before the task
sleeps, sends on `c` or acquires again. The flag says that a probe has
returned and its token is not released yet. -/
def promptRelease : Bool → List Event → Bool
  | _, [] => true
  | _, .get _ _ :: es => promptRelease true es
  | _, .release :: es => promptRelease false es
  | true, .sleep _ :: _ => false
  | true, .send _ :: _ => false
  | true, .acquire :: _ => false
  | p, _ :: es => promptRelease p es

/-- The net effect of a trace on the counter of the `WaitGroup`. -/
def countDelta : List Event → Int
  | [] => 0
  | .add :: es => 1 + countDelta es
  | .done :: es => -1 + countDelta es
  | _ :: es => countDelta es

/-! Part 2: the program as a transition system

The goroutines of the program are interleaved one atomic action at a time. A
state records the shared objects (the context, the semaphore channel `sem`,
the `WaitGroup`, the unbuffered channel `c` through the rendezvous of a
sender and the scheduler) and where every goroutine stands. -/

/-- The endpoints of lines 39-46. -/
def links : List String :=
  ["http://google.com", "http://takis.gr", "http://facebook.com",
   "http://stackoverflow.com", "http://golang.org", "http://amazon.com"]

/-- Where the innermost call of `checkLink` of a task stands: the statement
it executes next, or, for `get`, the call of `http.Get` it is executing. -/
inductive Pc where
  /-- Line 95, `sem <- struct{}{}`. -/
  | acquire
  /-- Line 98, the `select` on `ctx.Done()`. -/
  | check
  /-- Line 105, inside `http.Get(link)`. -/
  | get
  /-- Line 111, inside `time.Sleep(retryInterval)`. -/
  | sleep
  /-- Lines 117 and 124, `c <- link`. -/
  | send
  /-- Line 96, the deferred `<-sem`. -/
  | release
  /-- Line 93, the deferred `wg.Done()`. -/
  | done
  deriving DecidableEq, Repr

/-- A goroutine launched at line 62 or at line 80. The suspended calls of
`checkLink` of a running task all stand at the call of line 112, the only
call site, so they are recorded by their `retryCount`, innermost first. -/
inductive Task where
  /-- Line 81, inside `time.Sleep(3 * time.Second)`. -/
  | cooling (link : String)
  /-- Inside `checkLink`: the innermost call and the suspended callers. -/
  | running (link : String) (retryCount : Int) (pc : Pc) (callers : List Int)
  /-- The goroutine has returned. -/
  | finished (link : String)
  deriving DecidableEq, Repr

/-- Where `main` stands. -/
inductive MainPc where
  /-- Lines 60-63, with the endpoints still to launch. -/
  | seeding (rest : List String)
  /-- Line 88, `wg.Wait()`; the goroutines of lines 65 and 72 are started. -/
  | waiting
  /-- Lines 89-90: `main` has returned and the process is over. -/
  | exited
  /-- The process has died of the panic of a `WaitGroup` whose counter went
  negative. -/
  | crashed
  deriving DecidableEq, Repr

/-- Where the scheduler goroutine of lines 72-86 stands. -/
inductive Sched where
  /-- Not launched yet. -/
  | notStarted
  /-- Line 74, at the `select`. -/
  | selecting
  /-- Line 78: it has received `link` and has not yet called `wg.Add(1)`. -/
  | received (link : String)
  /-- Line 76: it has returned. -/
  | returned
  deriving DecidableEq, Repr

/-- A state of the program. -/
structure Sys where
  main : MainPc
  /-- Whether `cancel()` has been called, that is whether `ctx.Done()` is closed. -/
  cancelled : Bool
  sched : Sched
  /-- The number of elements in the channel `sem` (capacity `maxConcurrency`). -/
  held : Nat
  /-- The counter of the `WaitGroup`. -/
  count : Int
  tasks : List Task
  deriving DecidableEq, Repr

/-- One atomic action of one goroutine. -/
inductive Action where
  /-- Lines 61-62: `main` launches the next endpoint. -/
  | seed
  /-- Lines 65-88: `main` starts the signal handler and the scheduler and
  reaches `wg.Wait()`. -/
  | start
  /-- Lines 66-69: a signal arrives and the handler calls `cancel()`. -/
  | signal
  /-- Lines 75-76: the `select` of the scheduler takes `<-ctx.Done()`. -/
  | schedReturn
  /-- Line 77: the `select` of the scheduler takes `<-c`, which completes
  the send of task `i`. -/
  | schedRecv (i : Nat)
  /-- Lines 78-83: the scheduler calls `wg.Add(1)` and launches the goroutine. -/
  | schedSpawn
  /-- Task `i` executes its next statement; `ok` tells whether `http.Get`
  returns without error, when that is the statement. -/
  | task (i : Nat) (ok : Bool)
  /-- Lines 88-90: `wg.Wait()` returns and `main` returns. -/
  | mainReturn
  deriving DecidableEq, Repr

/-- The state before `main` reaches line 60. -/
def init (ls : List String) : Sys :=
  { main := .seeding ls, cancelled := false, sched := .notStarted, held := 0, count := 0,
    tasks := [] }

/-- Whether the process is still running. -/
def Sys.alive (s : Sys) : Bool :=
  match s.main with
  | .exited => false
  | .crashed => false
  | _ => true

/-- The next statement of task `i`. A send on `sem` blocks while the channel
is full; `c <- link` is not taken here, since it needs the scheduler (see
`schedRecv`); `wg.Done()` panics when it makes the counter negative. -/
def stepTask (s : Sys) (i : Nat) (ok : Bool) : Option Sys :=
  match s.tasks[i]? with
  | some (.cooling l) => some { s with tasks := s.tasks.set i (.running l 0 .acquire []) }
  | some (.running l rc .acquire cs) =>
    if s.held < maxConcurrency then
      some { s with held := s.held + 1, tasks := s.tasks.set i (.running l rc .check cs) }
    else none
  | some (.running l rc .check cs) =>
    some { s with
      tasks := s.tasks.set i (.running l rc (if s.cancelled then .release else .get) cs) }
  | some (.running l rc .get cs) =>
    some { s with
      tasks := s.tasks.set i
        (.running l rc (if ok then .send else if rc < maxRetries then .sleep else .send) cs) }
  | some (.running l rc .sleep cs) =>
    some { s with tasks := s.tasks.set i (.running l (rc + 1) .acquire (rc :: cs)) }
  | some (.running _ _ .send _) => none
  | some (.running l rc .release cs) =>
    some { s with held := s.held - 1, tasks := s.tasks.set i (.running l rc .done cs) }
  | some (.running l _ .done cs) =>
    some { s with
      count := s.count - 1
      main := if s.count - 1 < 0 then .crashed else s.main
      tasks := s.tasks.set i
        (match cs with
         | [] => .finished l
         | rc :: cs => .running l rc .send cs) }
  | some (.finished _) => none
  | none => none

/-- One action of the program, when it is enabled. -/
def step (s : Sys) (a : Action) : Option Sys :=
  if s.alive then
    match a with
    | .seed =>
      match s.main with
      | .seeding (l :: rest) =>
        some { s with main := .seeding rest, count := s.count + 1,
                      tasks := s.tasks ++ [.running l 0 .acquire []] }
      | _ => none
    | .start =>
      match s.main with
      | .seeding [] => some { s with main := .waiting, sched := .selecting }
      | _ => none
    | .signal =>
      match s.main with
      | .waiting => if s.cancelled then none else some { s with cancelled := true }
      | _ => none
    | .schedReturn =>
      match s.sched with
      | .selecting => if s.cancelled then some { s with sched := .returned } else none
      | _ => none
    | .schedRecv i =>
      match s.sched, s.tasks[i]? with
      | .selecting, some (.running l rc .send cs) =>
        some { s with sched := .received l, tasks := s.tasks.set i (.running l rc .release cs) }
      | _, _ => none
    | .schedSpawn =>
      match s.sched with
      | .received l =>
        some { s with sched := .selecting, count := s.count + 1,
                      tasks := s.tasks ++ [.cooling l] }
      | _ => none
    | .task i ok => stepTask s i ok
    | .mainReturn =>
      match s.main with
      | .waiting => if s.count = 0 then some { s with main := .exited } else none
      | _ => none
  else none

/-- The state after a sequence of actions, when each is enabled in turn. -/
def run (s : Sys) : List Action → Option Sys
  | [] => some s
  | a :: as => (step s a).bind (fun s1 => run s1 as)

/-- The states the program started on the endpoints `ls` can be in. -/
def Reachable (ls : List String) (s : Sys) : Prop := ∃ as, run (init ls) as = some s

/-- Whether a call standing at `pc` has sent on `sem` and not yet received
from it. -/
def Pc.holds : Pc → Bool
  | .acquire => false
  | .done => false
  | _ => true

/-- The number of tokens of `sem` a task holds: one for each suspended caller
(they stand at line 112, between their acquisition and their deferred
release) and one for the innermost call when it holds one. -/
def Task.slots : Task → Nat
  | .running _ _ pc cs => (if pc.holds then 1 else 0) + cs.length
  | _ => 0

/-- The number of tokens of `sem` held by all the tasks. -/
def slots (ts : List Task) : Nat := (ts.map Task.slots).sum

/-- Whether a task is executing `http.Get`. -/
def Task.probing : Task → Bool
  | .running _ _ .get _ => true
  | _ => false

/-- The number of tasks executing `http.Get`. -/
def probing (ts : List Task) : Nat := ts.countP Task.probing

/-- Whether the goroutine of a task has not returned yet. -/
def Task.unfinished : Task → Bool
  | .finished _ => false
  | _ => true

/-- The number of launched tasks that have not returned yet. -/
def unfinished (ts : List Task) : Nat := ts.countP Task.unfinished

/-- Whether a task is blocked in `c <- link`. -/
def Task.sending : Task → Bool
  | .running _ _ .send _ => true
  | _ => false

/-- The invariant of the limiter: the channel `sem` holds one element for
each token held by a task, and never more than its capacity. -/
def SemInv (s : Sys) : Prop := s.held = slots s.tasks ∧ s.held ≤ maxConcurrency

/-! Interleavings used in the evaluations below -/

/-- The six endpoints are launched, then the signal handler and the scheduler. -/
def seedAll : List Action := [.seed, .seed, .seed, .seed, .seed, .seed, .start]

/-- Five tasks take a token each and start their probe. -/
def fullPath : List Action :=
  seedAll ++
  [.task 0 true, .task 0 true, .task 1 true, .task 1 true, .task 2 true, .task 2 true,
   .task 3 true, .task 3 true, .task 4 true, .task 4 true]

/-- The state reached by `fullPath`: five probes in flight, the sixth task
waiting for a token. -/
def fullState : Sys :=
  { main := .waiting, cancelled := false, sched := .selecting, held := 5, count := 6,
    tasks := [.running "http://google.com" 0 .get [], .running "http://takis.gr" 0 .get [],
              .running "http://facebook.com" 0 .get [],
              .running "http://stackoverflow.com" 0 .get [],
              .running "http://golang.org" 0 .get [],
              .running "http://amazon.com" 0 .acquire []] }

/-- After `fullPath` the signal arrives, the scheduler takes `<-ctx.Done()`
and returns, and then the five probes succeed. -/
def stuckPath : List Action :=
  fullPath ++
  [.signal, .schedReturn,
   .task 0 true, .task 1 true, .task 2 true, .task 3 true, .task 4 true]

/-- The state reached by `stuckPath`: five tasks blocked in `c <- link` with
their token, the sixth blocked in `sem <- struct{}{}`, nobody receiving. -/
def stuckState : Sys :=
  { main := .waiting, cancelled := true, sched := .returned, held := 5, count := 6,
    tasks := [.running "http://google.com" 0 .send [], .running "http://takis.gr" 0 .send [],
              .running "http://facebook.com" 0 .send [],
              .running "http://stackoverflow.com" 0 .send [],
              .running "http://golang.org" 0 .send [],
              .running "http://amazon.com" 0 .acquire []] }

/-- The first task probes with success, the signal arrives, and the `select`
of the scheduler, both of whose cases are ready, takes `<-c`. -/
def lateRecvPath : List Action :=
  seedAll ++ [.task 0 true, .task 0 true, .task 0 true, .signal, .schedRecv 0]

/-- The round of the second endpoint: its first probe fails, it sleeps and
calls `checkLink` again, the second probe succeeds; the inner call sends and
returns, then the outer call sends and returns. No signal arrives. -/
def retryPath : List Action :=
  seedAll ++
  [.task 1 true, .task 1 true, .task 1 false, .task 1 true,
   .task 1 true, .task 1 true, .task 1 true, .schedRecv 1, .schedSpawn,
   .task 1 true, .task 1 true, .schedRecv 1, .schedSpawn, .task 1 true, .task 1 true]

/-- After `retryPath` the signal arrives and the seven tasks that are left
run to their end, each finding cancellation set. -/
def drainPath : List Action :=
  [.signal,
   .task 0 true, .task 0 true, .task 0 true, .task 0 true,
   .task 2 true, .task 2 true, .task 2 true, .task 2 true,
   .task 3 true, .task 3 true, .task 3 true, .task 3 true,
   .task 4 true, .task 4 true, .task 4 true, .task 4 true,
   .task 5 true, .task 5 true, .task 5 true, .task 5 true,
   .task 6 true, .task 6 true, .task 6 true, .task 6 true, .task 6 true,
   .task 7 true, .task 7 true, .task 7 true, .task 7 true, .task 7 true]

/-- Whether action `a`, taken in state `s`, is the return of a call of
`http.Get` made by task `i`. -/
def completesProbe (s : Sys) (i : Nat) : Action → Bool
  | .task j _ =>
    decide (j = i) &&
      (match s.tasks[i]? with
       | some t => t.probing
       | none => false)
  | _ => false

/-- The number of calls of `http.Get` that task `i` completes along a sequence
of actions taken from `s`. -/
def probesOf (i : Nat) : Sys → List Action → Nat
  | _, [] => 0
  | s, a :: as =>
    match step s a with
    | some s1 => (if completesProbe s i a then 1 else 0) + probesOf i s1 as
    | none => 0

/-- Every probe fails and no signal arrives: each of the first five tasks
takes a token, probes, gets an error, sleeps and calls `checkLink` again. -/
def starvePath : List Action :=
  seedAll ++
  [.task 0 true, .task 0 true, .task 0 false, .task 0 true,
   .task 1 true, .task 1 true, .task 1 false, .task 1 true,
   .task 2 true, .task 2 true, .task 2 false, .task 2 true,
   .task 3 true, .task 3 true, .task 3 false, .task 3 true,
   .task 4 true, .task 4 true, .task 4 false, .task 4 true]

/-- The state reached by `starvePath`: the five retried calls wait at line 95
for a slot of `sem`, while the five slots are held by their callers, suspended
at line 112; the sixth task waits at line 95 too. -/
def starvedState : Sys :=
  { main := .waiting, cancelled := false, sched := .selecting, held := 5, count := 6,
    tasks := [.running "http://google.com" 1 .acquire [0],
              .running "http://takis.gr" 1 .acquire [0],
              .running "http://facebook.com" 1 .acquire [0],
              .running "http://stackoverflow.com" 1 .acquire [0],
              .running "http://golang.org" 1 .acquire [0],
              .running "http://amazon.com" 0 .acquire []] }

/-- The probe of the second endpoint fails; during the retry wait the signal
arrives and the scheduler takes `<-ctx.Done()`; then the wait ends, the
retried call takes a token, finds cancellation set and returns, and its
caller goes on to line 117. -/
def waitCancelPath : List Action :=
  seedAll ++
  [.task 1 true, .task 1 true, .task 1 false, .signal, .schedReturn,
   .task 1 true, .task 1 true, .task 1 true, .task 1 true, .task 1 true]

/-- The state reached by `waitCancelPath`: the task of the second endpoint
stands in `c <- link` at line 117, and the scheduler has returned. -/
def sendBlockedState : Sys :=
  { main := .waiting, cancelled := true, sched := .returned, held := 1, count := 5,
    tasks := [.running "http://google.com" 0 .acquire [],
              .running "http://takis.gr" 0 .send [],
              .running "http://facebook.com" 0 .acquire [],
              .running "http://stackoverflow.com" 0 .acquire [],
              .running "http://golang.org" 0 .acquire [],
              .running "http://amazon.com" 0 .acquire []] }

/-- The probes of the first five tasks fail; the signal arrives while the
five tasks are in their retry wait; the waits end and the scheduler takes
`<-ctx.Done()`. -/
def waitStarvePath : List Action :=
  seedAll ++
  [.task 0 true, .task 0 true, .task 0 false,
   .task 1 true, .task 1 true, .task 1 false,
   .task 2 true, .task 2 true, .task 2 false,
   .task 3 true, .task 3 true, .task 3 false,
   .task 4 true, .task 4 true, .task 4 false,
   .signal,
   .task 0 true, .task 1 true, .task 2 true, .task 3 true, .task 4 true,
   .schedReturn]

/-- The state reached by `waitStarvePath`: cancellation is set and the five
retried calls wait at line 95 for a slot held by their own callers. -/
def retryStarvedState : Sys :=
  { main := .waiting, cancelled := true, sched := .returned, held := 5, count := 6,
    tasks := [.running "http://google.com" 1 .acquire [0],
              .running "http://takis.gr" 1 .acquire [0],
              .running "http://facebook.com" 1 .acquire [0],
              .running "http://stackoverflow.com" 1 .acquire [0],
              .running "http://golang.org" 1 .acquire [0],
              .running "http://amazon.com" 0 .acquire []] }

/-! The four paths through `checkLink` -/

theorem checkLink_cancelled (env : Env) (link : String) (rc : Int) (k : Nat)
    (hc : env.ctxDone k = true) :
    checkLink env link rc k = ⟨[.acquire, .logCancelled link, .release, .done], 1⟩ := by
  rw [checkLink]; simp [hc]

theorem checkLink_ok (env : Env) (link : String) (rc : Int) (k : Nat) (status : Nat)
    (hc : env.ctxDone k = false) (hg : env.httpGet k = .ok status) :
    checkLink env link rc k =
      ⟨[.acquire, .get link rc, .logUp link status, .send link, .closeBody,
        .release, .done], 1⟩ := by
  rw [checkLink]; simp [hc, hg]

theorem checkLink_giveUp (env : Env) (link : String) (rc : Int) (k : Nat) (err : String)
    (hc : env.ctxDone k = false) (hg : env.httpGet k = .error err)
    (hr : ¬ rc < maxRetries) :
    checkLink env link rc k =
      ⟨[.acquire, .get link rc, .logError link err, .logGiveUp link, .send link,
        .release, .done], 1⟩ := by
  rw [checkLink]; simp [hc, hg, hr]

theorem checkLink_retry (env : Env) (link : String) (rc : Int) (k : Nat) (err : String)
    (hc : env.ctxDone k = false) (hg : env.httpGet k = .error err)
    (hr : rc < maxRetries) :
    checkLink env link rc k =
      ⟨[.acquire, .get link rc, .logError link err, .logRetry link (rc + 1),
          .sleep retryInterval]
        ++ (checkLink env link (rc + 1) (k + 1)).events ++ [.send link, .release, .done],
       1 + (checkLink env link (rc + 1) (k + 1)).depth⟩ := by
  rw [checkLink]; simp [hc, hg, hr]

theorem attempts_append (xs ys : List Event) :
    attempts (xs ++ ys) = attempts xs ++ attempts ys := by
  induction xs with
  | nil => rfl
  | cons x xs ih => cases x <;> simp [attempts, ih]

/-- The attempt counters of a call made with `rc ≤ maxRetries` when
cancellation is never observed: `rc, rc+1, ..., rc+n`. -/
theorem attempts_from (env : Env) (link : String) (hc : ∀ k, env.ctxDone k = false) :
    ∀ (m : Nat) (rc : Int) (k : Nat), (maxRetries - rc).toNat = m → rc ≤ maxRetries →
      ∃ n : Nat,
        attempts (checkLink env link rc k).events
          = (List.range (n + 1)).map (fun i : Nat => rc + (i : Int)) ∧
        rc + (n : Int) ≤ maxRetries ∧
        (∀ j, j < n → ∃ err, env.httpGet (k + j) = .error err) ∧
        (rc + (n : Int) < maxRetries → ∃ status, env.httpGet (k + n) = .ok status) := by
  intro m
  induction m with
  | zero =>
    intro rc k hm hle
    have hrc : ¬ rc < maxRetries := by simp only [maxRetries] at *; omega
    refine ⟨0, ?_, by simpa using hle, by simp, ?_⟩
    · rcases hg : env.httpGet k with err | status
      · rw [checkLink_giveUp env link rc k err (hc k) hg hrc]; simp [attempts, List.range_succ]
      · rw [checkLink_ok env link rc k status (hc k) hg]; simp [attempts, List.range_succ]
    · intro h; exact absurd (by simpa using h) hrc
  | succ m ih =>
    intro rc k hm hle
    have hrc : rc < maxRetries := by simp only [maxRetries] at *; omega
    rcases hg : env.httpGet k with err | status
    · obtain ⟨n, hn, hb, hf, hs⟩ := ih (rc + 1) (k + 1)
        (by simp only [maxRetries] at *; omega) (by omega)
      refine ⟨n + 1, ?_, by push_cast; omega, ?_, ?_⟩
      · rw [checkLink_retry env link rc k err (hc k) hg hrc]
        have hcons : attempts ([Event.acquire, Event.get link rc, Event.logError link err,
              Event.logRetry link (rc + 1), Event.sleep retryInterval]
            ++ (checkLink env link (rc + 1) (k + 1)).events
            ++ [Event.send link, Event.release, Event.done])
            = rc :: attempts (checkLink env link (rc + 1) (k + 1)).events := by
          simp [attempts_append, attempts]
        rw [hcons, hn, List.range_succ_eq_map (n + 1), List.map_cons, List.map_map]
        simp only [Nat.cast_zero, add_zero, List.cons.injEq, true_and]
        apply List.map_congr_left
        intro i _
        simp only [Function.comp_apply, Nat.cast_succ]
        omega
      · intro j hj
        rcases j with _ | j
        · exact ⟨err, by simpa using hg⟩
        · obtain ⟨e, he⟩ := hf j (by omega)
          exact ⟨e, by rw [← he]; congr 1; omega⟩
      · intro h
        obtain ⟨st, hst⟩ := hs (by push_cast at h; omega)
        exact ⟨st, by rw [← hst]; congr 1; omega⟩
    · refine ⟨0, ?_, by simpa using hle, by simp, fun _ => ⟨status, by simpa using hg⟩⟩
      rw [checkLink_ok env link rc k status (hc k) hg]; simp [attempts, List.range_succ]

/-- A round that returns: when it is started with `retryCount = 0`, observes
no cancellation, and each of its sends on `sem` and on `c` is taken, its
probes carry the attempt counters `0, 1, ..., n` in this order, for some
`n ≤ maxRetries`; every probe before the last one failed, and the round stops
before `maxRetries` only because the last probe succeeded. When every probe
fails the counters are `0, 1, 2, 3`. -/
theorem returned_round_attempt_counters (env : Env) (link : String)
    (hc : ∀ k, env.ctxDone k = false) :
    (∃ n : Nat,
      attempts (checkLink env link 0 0).events = (List.range (n + 1)).map Int.ofNat ∧
      (n : Int) ≤ maxRetries ∧
      (∀ j, j < n → ∃ err, env.httpGet j = .error err) ∧
      ((n : Int) < maxRetries → ∃ status, env.httpGet n = .ok status)) ∧
    ((attempts (checkLink env link 0 0).events).length : Int) ≤ maxRetries + 1 ∧
    ((∀ k, ∃ err, env.httpGet k = .error err) →
      attempts (checkLink env link 0 0).events = [0, 1, 2, 3] ∧
      ((attempts (checkLink env link 0 0).events).length : Int) = maxRetries + 1) := by
  obtain ⟨n, hn, hb, hf, hs⟩ :=
    attempts_from env link hc (maxRetries - 0).toNat 0 0 rfl (by decide)
  have hn3 : n ≤ 3 := by simp only [maxRetries] at hb; omega
  have hn' : attempts (checkLink env link 0 0).events = (List.range (n + 1)).map Int.ofNat := by
    rw [hn]; apply List.map_congr_left; intro i _; simp
  refine ⟨⟨n, hn', by simpa using hb, fun j hj => by simpa using hf j hj,
    fun h => by simpa using hs (by simpa using h)⟩, ?_, ?_⟩
  · rw [hn']; simp only [List.length_map, List.length_range, maxRetries]; omega
  · intro hall
    have h3 : n = 3 := by
      by_contra hne
      obtain ⟨st, hst⟩ := hs (by simp only [maxRetries]; omega)
      obtain ⟨e, he⟩ := hall (0 + n)
      rw [hst] at he; cases he
    subst h3
    rw [hn']
    exact ⟨by decide, by decide⟩

/-- The round that returns after four failed probes. -/
theorem returned_round_allFail :
    (∀ k, allFail.ctxDone k = false) ∧
      attempts (checkLink allFail "http://takis.gr" 0 0).events = [0, 1, 2, 3] :=
  ⟨fun _ => rfl,
    ((returned_round_attempt_counters allFail "http://takis.gr" (fun _ => rfl)).2.2
      (fun _ => ⟨_, rfl⟩)).1⟩

/-! Induction along the nested calls -/

/-- Induction on the measure `maxRetries - retryCount`: a property of a call
follows from the same property of the call it makes, which exists only when
`retryCount < maxRetries`. -/
theorem checkLink_induction (P : Int → Nat → Prop)
    (step : ∀ rc k, (rc < maxRetries → P (rc + 1) (k + 1)) → P rc k) :
    ∀ rc k, P rc k := by
  have key : ∀ (m : Nat) (rc : Int) (k : Nat), (maxRetries - rc).toNat = m → P rc k := by
    intro m
    induction m with
    | zero =>
      intro rc k hm
      exact step rc k (fun h => absurd hm (by simp only [maxRetries] at *; omega))
    | succ m ih =>
      intro rc k hm
      exact step rc k (fun _ => ih (rc + 1) (k + 1) (by simp only [maxRetries] at *; omega))
  intro rc k
  exact key _ rc k rfl

/-- The traces of the four evaluation inputs, event by event. -/
theorem trace_failThenOk (link : String) :
    (checkLink failThenOk link 0 0).events =
      [.acquire, .get link 0, .logError link "connection refused", .logRetry link 1,
       .sleep 2, .acquire, .get link 1, .logUp link 200, .send link, .closeBody,
       .release, .done, .send link, .release, .done] := by
  simp [checkLink, failThenOk, neverCancelled, maxRetries, retryInterval]

theorem trace_allFail (link : String) :
    (checkLink allFail link 0 0).events =
      [.acquire, .get link 0, .logError link "connection refused", .logRetry link 1, .sleep 2,
       .acquire, .get link 1, .logError link "connection refused", .logRetry link 2, .sleep 2,
       .acquire, .get link 2, .logError link "connection refused", .logRetry link 3, .sleep 2,
       .acquire, .get link 3, .logError link "connection refused", .logGiveUp link,
       .send link, .release, .done, .send link, .release, .done,
       .send link, .release, .done, .send link, .release, .done] := by
  simp [checkLink, allFail, neverCancelled, maxRetries, retryInterval]

theorem trace_firstOk (link : String) :
    (checkLink firstOk link 0 0).events =
      [.acquire, .get link 0, .logUp link 200, .send link, .closeBody, .release, .done] := by
  simp [checkLink, firstOk, neverCancelled]

theorem trace_cancelledAtStart (link : String) (rc : Int) :
    (checkLink cancelledAtStart link rc 0).events =
      [.acquire, .logCancelled link, .release, .done] := by
  simp [checkLink, cancelledAtStart]

/-- Every call of `checkLink` runs the deferred `wg.Done()` once, so a task
decrements the counter once per activation. -/
theorem done_count_eq_depth (env : Env) (link : String) :
    ∀ rc k, occurrences .done (checkLink env link rc k).events
      = (checkLink env link rc k).depth := by
  apply checkLink_induction
  intro rc k ih
  by_cases hc : env.ctxDone k = true
  · rw [checkLink_cancelled env link rc k hc]
    simp [occurrences, List.count_cons]
  · have hc' : env.ctxDone k = false := by simpa using hc
    rcases hg : env.httpGet k with err | status
    · by_cases hr : rc < maxRetries
      · rw [checkLink_retry env link rc k err hc' hg hr]
        have := ih hr
        simp only [occurrences] at this ⊢
        simp [List.count_append, List.count_cons, this]
        omega
      · rw [checkLink_giveUp env link rc k err hc' hg hr]
        simp [occurrences, List.count_cons]
    · rw [checkLink_ok env link rc k status hc' hg]
      simp [occurrences, List.count_cons]

/-- When cancellation is never observed, every call of `checkLink` sends the
endpoint on `c` once, so a task forwards it once per activation. -/
theorem send_count_eq_depth (env : Env) (link : String)
    (hn : ∀ k, env.ctxDone k = false) :
    ∀ rc k, occurrences (.send link) (checkLink env link rc k).events
      = (checkLink env link rc k).depth := by
  apply checkLink_induction
  intro rc k ih
  rcases hg : env.httpGet k with err | status
  · by_cases hr : rc < maxRetries
    · rw [checkLink_retry env link rc k err (hn k) hg hr]
      have := ih hr
      simp only [occurrences] at this ⊢
      simp [List.count_append, List.count_cons, this]
      omega
    · rw [checkLink_giveUp env link rc k err (hn k) hg hr]
      simp [occurrences, List.count_cons]
  · rw [checkLink_ok env link rc k status (hn k) hg]
    simp [occurrences, List.count_cons]

/-- C2, the code at the failing input. A round whose first probe fails and
whose second probe succeeds sends the endpoint on `c` twice, and a round whose
four probes all fail sends it four times: once per activation of `checkLink`,
not once per round. In the program, after the round of the second endpoint
has failed once and then succeeded, the scheduler has launched two new rounds
for that endpoint. -/
theorem checkLink_forwards_once_per_activation :
    occurrences (.send "http://takis.gr")
        (checkLink failThenOk "http://takis.gr" 0 0).events = 2 ∧
    occurrences (.send "http://takis.gr")
        (checkLink allFail "http://takis.gr" 0 0).events = 4 ∧
    (∃ s, run (init links) retryPath = some s ∧
      s.tasks.count (.cooling "http://takis.gr") = 2) := by
  rw [trace_failThenOk, trace_allFail]
  exact ⟨by decide, by decide, _, rfl, by decide⟩

/-- C3 fails as stated. In the round whose first probe fails and whose second
succeeds, the token is not released between a probe and the following sleep,
acquisition or send; the task sleeps holding one token; and it holds two
tokens at once. Even in a round whose first probe succeeds the token is still
held when the endpoint is sent on `c`. -/
theorem token_not_released_after_probe :
    promptRelease false (checkLink failThenOk "http://takis.gr" 0 0).events = false ∧
    heldAtSleep 0 (checkLink failThenOk "http://takis.gr" 0 0).events = [1] ∧
    maxHeld 0 (checkLink failThenOk "http://takis.gr" 0 0).events = 2 ∧
    promptRelease false (checkLink firstOk "http://google.com" 0 0).events = false := by
  rw [trace_failThenOk, trace_firstOk]
  decide

/-- C3 as amended. Every call of `checkLink` acquires its token first and
releases it last, by the deferred `<-sem` that runs as the call returns, right
before its `wg.Done()`: everything else the call does, its probe and its send
on `c` (made unless the call found cancellation set) included, lies between
the two. Acquisitions and releases are balanced in the trace, so no token is
held once the call has returned. -/
theorem token_released_on_return (env : Env) (link : String) (rc : Int) (k : Nat) :
    ∃ mid, (checkLink env link rc k).events = .acquire :: mid ++ [.release, .done] ∧
      (if env.ctxDone k = true then mid = [.logCancelled link]
        else Event.get link rc ∈ mid ∧ Event.send link ∈ mid) ∧
      occurrences .acquire (checkLink env link rc k).events
        = occurrences .release (checkLink env link rc k).events := by
  have bal : ∀ rc k, occurrences .acquire (checkLink env link rc k).events
      = occurrences .release (checkLink env link rc k).events := by
    apply checkLink_induction
    intro rc k ih
    by_cases hc : env.ctxDone k = true
    · rw [checkLink_cancelled env link rc k hc]
      simp [occurrences, List.count_cons]
    · have hc' : env.ctxDone k = false := by simpa using hc
      rcases hg : env.httpGet k with err | status
      · by_cases hr : rc < maxRetries
        · rw [checkLink_retry env link rc k err hc' hg hr]
          have := ih hr
          simp only [occurrences] at this ⊢
          simp [List.count_append, List.count_cons, this]
        · rw [checkLink_giveUp env link rc k err hc' hg hr]
          simp [occurrences, List.count_cons]
      · rw [checkLink_ok env link rc k status hc' hg]
        simp [occurrences, List.count_cons]
  by_cases hc : env.ctxDone k = true
  · exact ⟨[.logCancelled link], by rw [checkLink_cancelled env link rc k hc]; rfl,
      by simp [hc], bal rc k⟩
  · have hc' : env.ctxDone k = false := by simpa using hc
    rcases hg : env.httpGet k with err | status
    · by_cases hr : rc < maxRetries
      · refine ⟨[.get link rc, .logError link err, .logRetry link (rc + 1),
            .sleep retryInterval] ++ (checkLink env link (rc + 1) (k + 1)).events
            ++ [.send link], ?_, by simp [hc'], bal rc k⟩
        rw [checkLink_retry env link rc k err hc' hg hr]
        simp
      · exact ⟨[.get link rc, .logError link err, .logGiveUp link, .send link],
          by rw [checkLink_giveUp env link rc k err hc' hg hr]; rfl, by simp [hc'], bal rc k⟩
    · exact ⟨[.get link rc, .logUp link status, .send link, .closeBody],
        by rw [checkLink_ok env link rc k status hc' hg]; rfl, by simp [hc'], bal rc k⟩

/-- C5. A call of `checkLink` that finds cancellation set does exactly this:
it takes a token, logs, gives the token back and calls `wg.Done()` once. It
makes no probe, does not sleep and sends nothing on `c`. A round launched by
the scheduler that finds cancellation set therefore leaves the counter where
it was before the `wg.Add(1)` made for it, makes no probe and sends nothing. -/
theorem checkLink_cancelled_stops (env : Env) (link : String) (rc : Int) (k : Nat)
    (hc : env.ctxDone k = true) :
    (checkLink env link rc k).events = [.acquire, .logCancelled link, .release, .done] ∧
    attempts (checkLink env link rc k).events = [] ∧
    (∀ d, Event.sleep d ∉ (checkLink env link rc k).events) ∧
    (∀ l, Event.send l ∉ (checkLink env link rc k).events) ∧
    occurrences .done (checkLink env link rc k).events = 1 ∧
    countDelta (scheduledRound env link k) = 0 ∧
    attempts (scheduledRound env link k) = [] ∧
    (∀ l, Event.send l ∉ scheduledRound env link k) := by
  simp only [scheduledRound]
  rw [checkLink_cancelled env link rc k hc, checkLink_cancelled env link 0 k hc]
  simp [attempts, occurrences, countDelta]

/-- C5, at a concrete call. -/
theorem checkLink_cancelled_stops_witness :
    cancelledAtStart.ctxDone 0 = true ∧
      (checkLink cancelledAtStart "http://golang.org" 2 0).events
        = [.acquire, .logCancelled "http://golang.org", .release, .done] :=
  ⟨rfl, (checkLink_cancelled_stops cancelledAtStart "http://golang.org" 2 0 rfl).1⟩

/-- C8 fails as stated. The call that finds cancellation set has acquired a
token: its trace holds an acquire event, and it is the first event. -/
theorem cancelled_call_acquires :
    cancelledAtStart.ctxDone 0 = true ∧
    occurrences .acquire (checkLink cancelledAtStart "http://golang.org" 0 0).events = 1 ∧
    (checkLink cancelledAtStart "http://golang.org" 0 0).events.head? = some .acquire := by
  rw [trace_cancelledAtStart]
  decide

/-- C8 as amended. Every call of `checkLink` acquires its token before it
checks the Cancellation Signal: the first event of every call is the
acquisition, and the check comes before the probe, so that a call that finds
cancellation set has acquired exactly one token, makes no probe and releases
the token, and a call that finds it unset makes its probe as its second
event. -/
theorem acquire_precedes_cancellation_check (env : Env) (link : String) (rc : Int)
    (k : Nat) :
    (checkLink env link rc k).events.head? = some .acquire ∧
    (if env.ctxDone k = true then
        (checkLink env link rc k).events.tail = [.logCancelled link, .release, .done] ∧
        occurrences .acquire (checkLink env link rc k).events = 1 ∧
        occurrences .release (checkLink env link rc k).events = 1 ∧
        attempts (checkLink env link rc k).events = []
      else (checkLink env link rc k).events.tail.head? = some (.get link rc)) := by
  by_cases hc : env.ctxDone k = true
  · rw [checkLink_cancelled env link rc k hc]
    simp [hc, occurrences, attempts]
  · have hc' : env.ctxDone k = false := by simpa using hc
    rcases hg : env.httpGet k with err | status
    · by_cases hr : rc < maxRetries
      · rw [checkLink_retry env link rc k err hc' hg hr]; simp [hc']
      · rw [checkLink_giveUp env link rc k err hc' hg hr]; simp [hc']
    · rw [checkLink_ok env link rc k status hc' hg]; simp [hc']

/-- A call that returns: when its probe fails with cancellation unset and
`retryCount < maxRetries`, and the retried call gets its token and finds
cancellation set, the retried call makes no probe, and line 117 of the outer
call, `c <- link`, comes next; the trace below is that of the call whose send
is received. -/
theorem returned_call_cancelled_during_wait (env : Env) (link : String) (rc : Int)
    (k : Nat) (err : String) (hr : rc < maxRetries) (h0 : env.ctxDone k = false)
    (hg : env.httpGet k = .error err) (h1 : env.ctxDone (k + 1) = true) :
    (checkLink env link rc k).events =
      [.acquire, .get link rc, .logError link err, .logRetry link (rc + 1),
       .sleep retryInterval,
       .acquire, .logCancelled link, .release, .done,
       .send link, .release, .done] ∧
    (checkLink env link (rc + 1) (k + 1)).events
      = [.acquire, .logCancelled link, .release, .done] ∧
    attempts (checkLink env link rc k).events = [rc] ∧
    occurrences (.send link) (checkLink env link rc k).events = 1 := by
  rw [checkLink_retry env link rc k err h0 hg hr,
    checkLink_cancelled env link (rc + 1) (k + 1) h1]
  simp [attempts, occurrences, List.count_cons]

/-- The call of `returned_call_cancelled_during_wait` for one endpoint. -/
theorem returned_call_cancelled_during_wait_takis :
    (0 : Int) < maxRetries ∧ cancelledDuringWait.ctxDone 0 = false ∧
      cancelledDuringWait.ctxDone 1 = true ∧
      occurrences (.send "http://takis.gr")
        (checkLink cancelledDuringWait "http://takis.gr" 0 0).events = 1 :=
  ⟨by decide, rfl, rfl,
    (returned_call_cancelled_during_wait cancelledDuringWait "http://takis.gr" 0 0
      "connection refused" (by decide) rfl rfl rfl).2.2.2⟩

/-- The depth of a call is between one and `maxRetries - retryCount + 1`,
the difference being taken as zero when it is negative. -/
theorem depth_le_measure (env : Env) (link : String) :
    ∀ rc k, 1 ≤ (checkLink env link rc k).depth ∧
      (checkLink env link rc k).depth ≤ (maxRetries - rc).toNat + 1 := by
  apply checkLink_induction
  intro rc k ih
  by_cases hc : env.ctxDone k = true
  · rw [checkLink_cancelled env link rc k hc]; simp
  · have hc' : env.ctxDone k = false := by simpa using hc
    rcases hg : env.httpGet k with err | status
    · by_cases hr : rc < maxRetries
      · rw [checkLink_retry env link rc k err hc' hg hr]
        obtain ⟨h1, h2⟩ := ih hr
        simp only [maxRetries] at *
        constructor <;> omega
      · rw [checkLink_giveUp env link rc k err hc' hg hr]; simp
    · rw [checkLink_ok env link rc k status hc' hg]; simp

/-- C10. `checkLink` is defined by well-founded recursion on
`maxRetries - retryCount`, for every integer `retryCount`, so every call
returns. The measure strictly decreases at the recursive call, which is made
only when `retryCount < maxRetries`; and the nesting depth of a call is at
most `maxRetries - retryCount + 1` when `retryCount ≤ maxRetries` and exactly
one otherwise. -/
theorem checkLink_nesting_depth (env : Env) (link : String) (rc : Int) (k : Nat) :
    (rc < maxRetries → (maxRetries - (rc + 1)).toNat < (maxRetries - rc).toNat) ∧
    1 ≤ (checkLink env link rc k).depth ∧
    (if rc ≤ maxRetries then ((checkLink env link rc k).depth : Int) ≤ maxRetries - rc + 1
      else (checkLink env link rc k).depth = 1) := by
  obtain ⟨h1, h2⟩ := depth_le_measure env link rc k
  refine ⟨fun h => by simp only [maxRetries] at *; omega, h1, ?_⟩
  split
  · simp only [maxRetries] at *; omega
  · simp only [maxRetries] at *; omega

/-- C10, at concrete calls: the measure decreases from `retryCount = 0`, and
the bound of four nested calls is reached when every probe fails. -/
theorem checkLink_nesting_depth_witness :
    (0 : Int) < maxRetries ∧ (maxRetries - (0 + 1)).toNat < (maxRetries - 0).toNat ∧
      (checkLink allFail "http://takis.gr" 0 0).depth = 4 :=
  ⟨by decide, (checkLink_nesting_depth allFail "http://takis.gr" 0 0).1 (by decide),
    by simp [checkLink, allFail, neverCancelled, maxRetries]⟩

/-! The limiter bounds the probes in flight -/

theorem slots_append (ts : List Task) (t : Task) : slots (ts ++ [t]) = slots ts + t.slots := by
  simp [slots]

theorem slots_set (ts : List Task) (i : Nat) (t t1 : Task) (h : ts[i]? = some t) :
    slots (ts.set i t1) + t.slots = slots ts + t1.slots := by
  induction ts generalizing i with
  | nil => simp at h
  | cons x xs ih =>
    cases i with
    | zero =>
      simp only [List.getElem?_cons_zero, Option.some.injEq] at h
      subst h
      simp only [slots, List.set_cons_zero, List.map_cons, List.sum_cons]
      omega
    | succ i =>
      simp only [List.getElem?_cons_succ] at h
      have := ih i h
      simp only [slots, List.set_cons_succ, List.map_cons, List.sum_cons] at this ⊢
      omega

theorem probing_le_slots (ts : List Task) : probing ts ≤ slots ts := by
  induction ts with
  | nil => simp [probing, slots]
  | cons x xs ih =>
    have hx : (if x.probing = true then 1 else 0) ≤ x.slots := by
      cases x with
      | running l rc pc cs => cases pc <;> simp [Task.probing, Task.slots, Pc.holds]
      | cooling l => simp [Task.probing]
      | finished l => simp [Task.probing]
    simp only [probing, slots, List.countP_cons, List.map_cons, List.sum_cons] at ih ⊢
    omega

theorem semInv_init (ls : List String) : SemInv (init ls) := by
  simp [SemInv, init, slots]

theorem semInv_stepTask (s s1 : Sys) (i : Nat) (ok : Bool) (hinv : SemInv s)
    (h : stepTask s i ok = some s1) : SemInv s1 := by
  obtain ⟨hs, hcap⟩ := hinv
  unfold stepTask at h
  cases hget : s.tasks[i]? with
  | none => simp [hget] at h
  | some t =>
    have hset := fun t1 => slots_set s.tasks i t t1 hget
    cases t with
    | cooling l =>
      simp only [hget, Option.some.injEq] at h
      subst h
      have := hset (.running l 0 .acquire [])
      simp only [Task.slots, Pc.holds] at this
      exact ⟨by simp only; simp at this; omega, hcap⟩
    | finished l => simp [hget] at h
    | running l rc pc cs =>
      cases pc with
      | acquire =>
        simp only [hget] at h
        split at h
        · rename_i hlt
          simp only [Option.some.injEq] at h
          subst h
          have := hset (.running l rc .check cs)
          simp only [Task.slots, Pc.holds] at this
          exact ⟨by simp only; simp at this; omega, by simp only; omega⟩
        · simp at h
      | check =>
        simp only [hget, Option.some.injEq] at h
        subst h
        have := hset (.running l rc (if s.cancelled then .release else .get) cs)
        refine ⟨?_, hcap⟩
        cases hc : s.cancelled <;> simp [hc, Task.slots, Pc.holds] at this ⊢ <;> omega
      | get =>
        simp only [hget, Option.some.injEq] at h
        subst h
        have := hset (.running l rc
          (if ok then .send else if rc < maxRetries then .sleep else .send) cs)
        refine ⟨?_, hcap⟩
        cases ok <;> by_cases hr : rc < maxRetries <;>
          simp [hr, Task.slots, Pc.holds] at this ⊢ <;> omega
      | sleep =>
        simp only [hget, Option.some.injEq] at h
        subst h
        have := hset (.running l (rc + 1) .acquire (rc :: cs))
        simp only [Task.slots, Pc.holds] at this
        exact ⟨by simp only; simp at this; omega, hcap⟩
      | send => simp [hget] at h
      | release =>
        simp only [hget, Option.some.injEq] at h
        subst h
        have := hset (.running l rc .done cs)
        simp only [Task.slots, Pc.holds] at this
        exact ⟨by simp only; simp at this; omega, by simp only; omega⟩
      | done =>
        simp only [hget, Option.some.injEq] at h
        subst h
        refine ⟨?_, hcap⟩
        cases cs with
        | nil =>
          have := hset (.finished l)
          simp only [Task.slots, Pc.holds] at this
          simp only; simp at this; omega
        | cons c cs =>
          have := hset (.running l c .send cs)
          simp only [Task.slots, Pc.holds] at this
          simp only; simp at this; omega

theorem semInv_step (s s1 : Sys) (a : Action) (hinv : SemInv s) (h : step s a = some s1) :
    SemInv s1 := by
  unfold step at h
  split at h
  · cases a with
    | task i ok => exact semInv_stepTask s s1 i ok hinv h
    | schedRecv i =>
      simp only at h
      split at h
      · rename_i l rc cs hsel hget
        simp only [Option.some.injEq] at h
        subst h
        have := slots_set s.tasks i _ (.running l rc .release cs) hget
        simp only [Task.slots, Pc.holds] at this
        exact ⟨by have := hinv.1; simp only; simp at *; omega, hinv.2⟩
      · simp at h
    | schedSpawn =>
      simp only at h
      split at h
      · simp only [Option.some.injEq] at h
        subst h
        exact ⟨by simp [slots_append, Task.slots, hinv.1], hinv.2⟩
      · simp at h
    | seed =>
      simp only at h
      split at h
      · simp only [Option.some.injEq] at h
        subst h
        exact ⟨by simp [slots_append, Task.slots, Pc.holds, hinv.1], hinv.2⟩
      · simp at h
    | start =>
      simp only at h
      split at h
      · simp only [Option.some.injEq] at h
        subst h
        exact hinv
      · simp at h
    | signal =>
      simp only at h
      split at h
      · split at h
        · simp at h
        · simp only [Option.some.injEq] at h
          subst h
          exact hinv
      · simp at h
    | schedReturn =>
      simp only at h
      split at h
      · split at h
        · simp only [Option.some.injEq] at h
          subst h
          exact hinv
        · simp at h
      · simp at h
    | mainReturn =>
      simp only at h
      split at h
      · split at h
        · simp only [Option.some.injEq] at h
          subst h
          exact hinv
        · simp at h
      · simp at h
  · simp at h

theorem semInv_run (as : List Action) : ∀ (s s1 : Sys), SemInv s → run s as = some s1 →
    SemInv s1 := by
  induction as with
  | nil =>
    intro s s1 hinv h
    simp only [run, Option.some.injEq] at h
    exact h ▸ hinv
  | cons a as ih =>
    intro s s1 hinv h
    simp only [run] at h
    cases hs : step s a with
    | none => simp [hs] at h
    | some s2 =>
      simp only [hs, Option.some_bind] at h
      exact ih s2 s1 (semInv_step s s2 a hinv hs) h

/-- C6. In every state the program can reach, whatever the endpoints and the
interleaving, the number of tasks executing `http.Get` is at most the number
of elements in `sem`, which is the number of tokens held by the tasks and is
at most `maxConcurrency`; so at most five probes run at once. -/
theorem probes_bounded_by_limiter (ls : List String) (s : Sys) (h : Reachable ls s) :
    probing s.tasks ≤ s.held ∧ s.held = slots s.tasks ∧ s.held ≤ maxConcurrency ∧
      probing s.tasks ≤ 5 := by
  obtain ⟨as, has⟩ := h
  have hinv := semInv_run as (init ls) s (semInv_init ls) has
  have hp := probing_le_slots s.tasks
  obtain ⟨h1, h2⟩ := hinv
  simp only [maxConcurrency] at *
  omega

/-- C6, at a concrete state: five probes in flight, all five tokens taken. -/
theorem probes_bounded_by_limiter_witness :
    Reachable links fullState ∧ probing fullState.tasks = 5 ∧
      probing fullState.tasks ≤ fullState.held :=
  ⟨⟨fullPath, by decide⟩, by decide,
    (probes_bounded_by_limiter links fullState ⟨fullPath, by decide⟩).1⟩

/-! The counter of the `WaitGroup` and the shutdown -/

/-- C4, the code at the failing input. The task whose first probe fails and
whose second succeeds calls `wg.Done()` twice, once per activation of
`checkLink`, for the single `wg.Add(1)` made for it. In the program, after
such a round and with no signal, the counter is 6 while 7 launched tasks have
not returned; and when the signal then arrives and these tasks return, the
counter becomes negative, which is a panic. -/
theorem done_once_per_activation :
    occurrences .done (checkLink failThenOk "http://takis.gr" 0 0).events = 2 ∧
    countDelta (scheduledRound failThenOk "http://takis.gr" 0) = -1 ∧
    (∃ s, run (init links) retryPath = some s ∧ s.cancelled = false ∧
      s.count = 6 ∧ unfinished s.tasks = 7) ∧
    (∃ s, run (init links) (retryPath ++ drainPath) = some s ∧
      s.count = -1 ∧ s.main = .crashed) := by
  refine ⟨?_, ?_, ?_, ?_⟩
  · rw [trace_failThenOk]; decide
  · simp only [scheduledRound]; rw [trace_failThenOk]; decide
  · exact ⟨_, rfl, by decide, by decide, by decide⟩
  · exact ⟨_, rfl, by decide, by decide⟩

/-- C7, the code at the failing input. With the six endpoints of `main`,
the program reaches, after the signal, a state in which the counter is 6,
five tasks are blocked in `c <- link` (the scheduler has returned), the sixth
is blocked in `sem <- struct{}{}` (the five tokens are held by the blocked
senders), and no goroutine can take a step: the counter never reaches zero
and `wg.Wait()` never returns. Moreover the counter can still grow after the
signal, when the `select` of the scheduler takes `<-c`. -/
theorem shutdown_can_hang :
    run (init links) stuckPath = some stuckState ∧
    stuckState.cancelled = true ∧ stuckState.main = .waiting ∧ stuckState.count = 6 ∧
    stuckState.tasks.countP Task.sending = 5 ∧ stuckState.held = maxConcurrency ∧
    (∀ a, step stuckState a = none) ∧
    (∀ as s, run stuckState as = some s → s = stuckState) ∧
    (∃ s s1, run (init links) lateRecvPath = some s ∧ s.cancelled = true ∧
      step s .schedSpawn = some s1 ∧ s.count < s1.count) := by
  have hstuck : ∀ a, step stuckState a = none := by
    intro a
    cases a with
    | task i ok => rcases i with _ | _ | _ | _ | _ | _ | i <;> rfl
    | schedRecv i => rfl
    | _ => rfl
  refine ⟨by decide, rfl, rfl, rfl, by decide, rfl, hstuck, ?_, ?_⟩
  · intro as s h
    cases as with
    | nil => simpa [run] using h.symm
    | cons a as => simp [run, hstuck a] at h
  · exact ⟨_, _, rfl, by decide, rfl, by decide⟩

/-! Rounds that do not return -/

/-- A task blocked in `c <- link` cannot step by itself. -/
theorem stepTask_sending (s : Sys) (i : Nat) (ok : Bool) (t : Task)
    (ht : t.sending = true) (h : s.tasks[i]? = some t) : stepTask s i ok = none := by
  unfold stepTask
  cases t with
  | cooling l => simp [Task.sending] at ht
  | finished l => simp [Task.sending] at ht
  | running l rc pc cs =>
    cases pc <;> simp [Task.sending] at ht
    simp [h]

/-- A step of a task changes neither the scheduler nor, short of a crash,
`main`, and it changes no other task. -/
theorem stepTask_frame (s s1 : Sys) (j : Nat) (ok : Bool) (h : stepTask s j ok = some s1) :
    s1.sched = s.sched ∧ (s1.main = s.main ∨ s1.main = .crashed) ∧
      ∃ t, s1.tasks = s.tasks.set j t := by
  unfold stepTask at h
  cases hget : s.tasks[j]? with
  | none => simp [hget] at h
  | some t =>
    cases t with
    | cooling l =>
      simp only [hget, Option.some.injEq] at h
      subst h
      exact ⟨rfl, Or.inl rfl, _, rfl⟩
    | finished l => simp [hget] at h
    | running l rc pc cs =>
      cases pc with
      | acquire =>
        simp only [hget] at h
        split at h
        · simp only [Option.some.injEq] at h
          subst h
          exact ⟨rfl, Or.inl rfl, _, rfl⟩
        · simp at h
      | check =>
        simp only [hget, Option.some.injEq] at h
        subst h
        exact ⟨rfl, Or.inl rfl, _, rfl⟩
      | get =>
        simp only [hget, Option.some.injEq] at h
        subst h
        exact ⟨rfl, Or.inl rfl, _, rfl⟩
      | sleep =>
        simp only [hget, Option.some.injEq] at h
        subst h
        exact ⟨rfl, Or.inl rfl, _, rfl⟩
      | send => simp [hget] at h
      | release =>
        simp only [hget, Option.some.injEq] at h
        subst h
        exact ⟨rfl, Or.inl rfl, _, rfl⟩
      | done =>
        simp only [hget, Option.some.injEq] at h
        subst h
        refine ⟨rfl, ?_, _, rfl⟩
        simp only
        split
        · exact Or.inr rfl
        · exact Or.inl rfl

/-- Once the scheduler has returned, a task blocked in `c <- link` stays
there whatever the other goroutines do. -/
theorem send_blocked_step (s s1 : Sys) (a : Action) (i : Nat) (t : Task)
    (ht : t.sending = true) (hsched : s.sched = .returned)
    (hmain : ∀ r, s.main ≠ .seeding r) (hi : s.tasks[i]? = some t)
    (h : step s a = some s1) :
    s1.sched = .returned ∧ (∀ r, s1.main ≠ .seeding r) ∧ s1.tasks[i]? = some t := by
  unfold step at h
  split at h
  · cases a with
    | task j ok =>
      simp only at h
      obtain ⟨h1, h2, t1, h3⟩ := stepTask_frame s s1 j ok h
      have hji : j ≠ i := by
        intro hji
        subst hji
        rw [stepTask_sending s j ok t ht hi] at h
        cases h
      refine ⟨by rw [h1, hsched], ?_, ?_⟩
      · intro r hr
        rcases h2 with h2 | h2
        · exact hmain r (by rw [← h2, hr])
        · rw [h2] at hr; cases hr
      · rw [h3, List.getElem?_set_ne hji, hi]
    | schedRecv j =>
      simp only at h
      split at h
      · rename_i hsel _
        rw [hsched] at hsel
        cases hsel
      · simp at h
    | schedSpawn =>
      simp only at h
      split at h
      · rename_i hrec
        rw [hsched] at hrec
        cases hrec
      · simp at h
    | seed =>
      simp only at h
      split at h
      · rename_i hm
        exact absurd hm (hmain _)
      · simp at h
    | start =>
      simp only at h
      split at h
      · rename_i hm
        exact absurd hm (hmain _)
      · simp at h
    | signal =>
      simp only at h
      split at h
      · split at h
        · simp at h
        · simp only [Option.some.injEq] at h
          subst h
          exact ⟨hsched, hmain, hi⟩
      · simp at h
    | schedReturn =>
      simp only at h
      split at h
      · rename_i hsel
        rw [hsched] at hsel
        cases hsel
      · simp at h
    | mainReturn =>
      simp only at h
      split at h
      · split at h
        · simp only [Option.some.injEq] at h
          subst h
          exact ⟨hsched, fun r hr => MainPc.noConfusion hr, hi⟩
        · simp at h
      · simp at h
  · simp at h

theorem send_blocked_run (i : Nat) (t : Task) (ht : t.sending = true) (as : List Action) :
    ∀ (s s1 : Sys), s.sched = .returned → (∀ r, s.main ≠ .seeding r) →
      s.tasks[i]? = some t → run s as = some s1 →
      s1.sched = .returned ∧ s1.tasks[i]? = some t := by
  induction as with
  | nil =>
    intro s s1 h1 _ h3 h
    simp only [run, Option.some.injEq] at h
    subst h
    exact ⟨h1, h3⟩
  | cons a as ih =>
    intro s s1 h1 h2 h3 h
    simp only [run] at h
    cases hs : step s a with
    | none => simp [hs] at h
    | some s2 =>
      simp only [hs, Option.some_bind] at h
      obtain ⟨k1, k2, k3⟩ := send_blocked_step s s2 a i t ht h1 h2 h3 hs
      exact ih s2 s1 k1 k2 k3 h

/-- C1, the code at the failing input. With the six endpoints of `main`,
every probe failing and no signal, the program reaches a state in which each
of the first five rounds has made one probe, with attempt counter 0, and its
retried call waits for ever at `sem <- struct{}{}`: the five slots are held by
the suspended callers. The sixth round has made no probe. As long as
cancellation is not set no goroutine can take a step, so no round makes its
second attempt, let alone four. -/
theorem round_starves_at_retry :
    run (init links) starvePath = some starvedState ∧
    starvedState.cancelled = false ∧ starvedState.held = maxConcurrency ∧
    (List.range 6).map (fun i => probesOf i (init links) starvePath) = [1, 1, 1, 1, 1, 0] ∧
    (∀ a, a ≠ .signal → step starvedState a = none) ∧
    (∀ as s, Action.signal ∉ as → run starvedState as = some s → s = starvedState) := by
  have hstuck : ∀ a, a ≠ .signal → step starvedState a = none := by
    intro a ha
    cases a with
    | task i ok => rcases i with _ | _ | _ | _ | _ | _ | i <;> rfl
    | schedRecv i => rcases i with _ | _ | _ | _ | _ | _ | i <;> rfl
    | signal => exact absurd rfl ha
    | _ => rfl
  refine ⟨by decide, rfl, rfl, by decide, hstuck, ?_⟩
  intro as s hno h
  cases as with
  | nil => simpa [run] using h.symm
  | cons a as =>
    have ha : a ≠ .signal := by
      intro ha
      subst ha
      simp at hno
    simp [run, hstuck a ha] at h

/-- C9, the code at the failing input. The probe of the second endpoint
fails with cancellation unset, the signal arrives during the retry wait and
the scheduler returns. The retried call makes no probe (the task has made
one probe in all) and returns, and its caller reaches `c <- link` at line
117; but nobody receives any more, and whatever the goroutines do from then
on the task stays in that send: the endpoint is never forwarded. When the
five slots of `sem` are taken by callers in their retry wait, the retried
calls do not even get past line 95, and no goroutine can take a step. -/
theorem forward_after_cancelled_wait_blocks :
    run (init links) waitCancelPath = some sendBlockedState ∧
    probesOf 1 (init links) waitCancelPath = 1 ∧
    sendBlockedState.cancelled = true ∧
    sendBlockedState.tasks[1]? = some (.running "http://takis.gr" 0 .send []) ∧
    (∀ as s, run sendBlockedState as = some s →
      s.sched = .returned ∧ s.tasks[1]? = some (.running "http://takis.gr" 0 .send [])) ∧
    run (init links) waitStarvePath = some retryStarvedState ∧
    (∀ a, step retryStarvedState a = none) := by
  refine ⟨by decide, by decide, rfl, rfl, ?_, by decide, ?_⟩
  · intro as s h
    exact send_blocked_run 1 (.running "http://takis.gr" 0 .send []) rfl as
      sendBlockedState s rfl (fun r hr => MainPc.noConfusion hr) rfl h
  · intro a
    cases a with
    | task i ok => rcases i with _ | _ | _ | _ | _ | _ | i <;> rfl
    | schedRecv i => rfl
    | _ => rfl

end StatusChecker
